import Mathlib

/-!
# Verification of the OfficeMap spatial layout and camera engine

Shallow embedding of `src/components/OfficeMap.tsx` and the AI search client
`src/services/geminiService.ts`.

  * machine numbers (camera state, geometry) are modelled as `ℚ`;
  * grid coordinates as `ℤ`, visitor counts as `ℕ`;
  * the globe trigonometric placement is modelled over `ℝ`;
  * the asynchronous AI collaborators are modelled by passing their outcome
    (`Except Unit _`: success value or thrown error) as an explicit argument;
  * React component state is an explicit `MapState` structure and every state
    setter / event handler of the component is a constructor of `MapOp`,
    interpreted by the `step` function.
-/

/-- Spatial layout constant `CONTAINER_SIZE = 1200` (OfficeMap.tsx line 10). -/
def CONTAINER_SIZE : ℚ := 1200

/-- Spatial layout constant `GRID_COLS = 3` (OfficeMap.tsx line 11). -/
def GRID_COLS : ℕ := 3

/-- Spatial layout constant `PADDING = 120` (OfficeMap.tsx line 12). -/
def PADDING : ℚ := 120

/-- Spatial layout constant `GAP = 120` (OfficeMap.tsx line 13). -/
def GAP : ℚ := 120

/-- Constant `CELL_SIZE = (CONTAINER_SIZE - PADDING*2 - GAP*(GRID_COLS-1)) / GRID_COLS`
(OfficeMap.tsx line 14). -/
def CELL_SIZE : ℚ := (CONTAINER_SIZE - (PADDING * 2) - (GAP * ((GRID_COLS : ℚ) - 1))) / (GRID_COLS : ℚ)

/-- Constant `GLOBE_RADIUS = 320` (OfficeMap.tsx line 15). -/
def GLOBE_RADIUS : ℚ := 320

/-- Function `getCellCenter` (OfficeMap.tsx lines 17-23): centre of the 1-based grid cell. -/
def getCellCenter (gridPos : ℤ × ℤ) : ℚ × ℚ :=
  let colIndex : ℚ := (gridPos.1 : ℚ) - 1
  let rowIndex : ℚ := (gridPos.2 : ℚ) - 1
  let x := PADDING + (colIndex * CELL_SIZE) + (colIndex * GAP) + (CELL_SIZE / 2)
  let y := PADDING + (rowIndex * CELL_SIZE) + (rowIndex * GAP) + (CELL_SIZE / 2)
  (x, y)

/-- The `MapMode` union type (OfficeMap.tsx line 25). -/
inductive MapMode where
  | standard
  | heatmap
  | networking
  | traffic
  | globe
deriving DecidableEq, Repr

/-- The interaction-mode union `'pan' | 'rotate'` (OfficeMap.tsx line 368). -/
inductive InteractionMode where
  | pan
  | rotate
deriving DecidableEq, Repr

/-- The camera/view state `{zoom, rotateX, rotateZ, panX, panY}`
(OfficeMap.tsx line 369). -/
structure ViewState where
  zoom : ℚ
  rotateX : ℚ
  rotateZ : ℚ
  panX : ℚ
  panY : ℚ
deriving DecidableEq, Repr

/-- A business genome profile (`types` module, described in spec §3):
services offered/needed plus sector and size tags. -/
structure GenomeProfile where
  servicesOffered : List String
  servicesNeeded : List String
  industrySector : String
  companySize : String
deriving DecidableEq, Repr

/-- A business record. Modelled from the spec (§3 data model) together with the
field accesses the map component makes: the `types` module itself is not under
`src/`. `description`, `activeVisitors` and `genomeProfile` are optional
(`activeVisitors` is read as `b.activeVisitors || 0`). -/
structure Business where
  id : String
  name : String
  description : Option String
  category : String
  isOccupied : Bool
  gridPosition : ℤ × ℤ
  activeVisitors : Option ℕ
  genomeProfile : Option GenomeProfile
deriving DecidableEq, Repr

/-- JavaScript `hay.includes(needle)` on strings, modelled on character lists:
`true` iff `needle` occurs contiguously inside `hay`. -/
def containsSub (needle : List Char) : List Char → Bool
  | [] => needle.isEmpty
  | c :: rest => needle.isPrefixOf (c :: rest) || containsSub needle rest

/-- JavaScript `s.toLowerCase()` as a character list. -/
def strLower (s : String) : List Char := s.data.map Char.toLower

/-- JavaScript falsiness of `s.trim()`: `!s.trim()` is `true` exactly when `s`
consists of whitespace only (trimming removes leading and trailing whitespace,
so the trimmed string is empty iff every character is whitespace). -/
def isBlank (s : String) : Bool := s.data.all fun c => c.isWhitespace

/-- The synergy check of `networkingConnections` (OfficeMap.tsx lines 397-401):
some needed service of one business case-insensitively contains, or is
contained in, some offered service of the other, in either role assignment.
Missing genome profiles (optional chaining in the source) yield `false`. -/
def hasSynergy (b1 b2 : Business) : Bool :=
  (match b1.genomeProfile with
   | some g1 =>
     g1.servicesNeeded.any fun need =>
       match b2.genomeProfile with
       | some g2 =>
         g2.servicesOffered.any fun offer =>
           containsSub (strLower need) (strLower offer) ||
             containsSub (strLower offer) (strLower need)
       | none => false
   | none => false) ||
  (match b2.genomeProfile with
   | some g2 =>
     g2.servicesNeeded.any fun need =>
       match b1.genomeProfile with
       | some g1 =>
         g1.servicesOffered.any fun offer =>
           containsSub (strLower need) (strLower offer) ||
             containsSub (strLower offer) (strLower need)
       | none => false
   | none => false)

/-- The connection type tag `'synergy' | 'industry'`. -/
inductive ConnType where
  | synergy
  | industry
deriving DecidableEq, Repr

/-- A derived networking connection (OfficeMap.tsx line 408). -/
structure Connection where
  id : String
  participants : String × String
  startP : ℚ × ℚ
  endP : ℚ × ℚ
  type : ConnType
deriving DecidableEq, Repr

/-- Edge derivation for one ordered pair inside the double loop of
`networkingConnections` (OfficeMap.tsx lines 403-409): synergy wins, else a
shared category gives an industry edge, else no edge. -/
def edgeFor (b1 b2 : Business) : Option Connection :=
  if hasSynergy b1 b2 then
    some { id := b1.id ++ "-" ++ b2.id, participants := (b1.id, b2.id),
           startP := getCellCenter b1.gridPosition, endP := getCellCenter b2.gridPosition,
           type := ConnType.synergy }
  else if b1.category = b2.category then
    some { id := b1.id ++ "-" ++ b2.id, participants := (b1.id, b2.id),
           startP := getCellCenter b1.gridPosition, endP := getCellCenter b2.gridPosition,
           type := ConnType.industry }
  else
    none

/-- The double loop `for i; for j > i` of `networkingConnections`
(OfficeMap.tsx lines 391-411) over an already-filtered occupied list. -/
def pairConnections : List Business → List Connection
  | [] => []
  | b :: rest => rest.filterMap (edgeFor b) ++ pairConnections rest

/-- Function `networkingConnections` (OfficeMap.tsx lines 387-413): empty unless in
networking mode, otherwise all pairwise edges over occupied businesses. -/
def networkingConnections (mapMode : MapMode) (businesses : List Business) : List Connection :=
  if mapMode ≠ MapMode.networking then []
  else pairConnections (businesses.filter fun b => b.isOccupied)

/-- A traffic segment (OfficeMap.tsx lines 422 and 428). -/
structure TrafficSegment where
  id : String
  x1 : ℚ
  y1 : ℚ
  x2 : ℚ
  y2 : ℚ
  visitors : ℕ
  orientation : String
deriving DecidableEq, Repr

/-- One internal vertical corridor segment of `trafficSegments`
(OfficeMap.tsx lines 418-422). -/
def verticalSegment (businesses : List Business) (c : ℕ) : TrafficSegment :=
  let x : ℚ := PADDING + ((c : ℚ) - 1) * (CELL_SIZE + GAP) + CELL_SIZE + GAP / 2
  let nearby := businesses.filter fun b =>
    b.isOccupied && (b.gridPosition.1 = (c : ℤ) || b.gridPosition.1 = (c : ℤ) + 1)
  let visitors := nearby.foldl (fun acc b => acc + b.activeVisitors.getD 0) 0
  { id := "v-" ++ toString c, x1 := x, y1 := PADDING, x2 := x, y2 := CONTAINER_SIZE - PADDING,
    visitors := visitors, orientation := "vertical" }

/-- One internal horizontal corridor segment of `trafficSegments`
(OfficeMap.tsx lines 424-428). -/
def horizontalSegment (businesses : List Business) (r : ℕ) : TrafficSegment :=
  let y : ℚ := PADDING + ((r : ℚ) - 1) * (CELL_SIZE + GAP) + CELL_SIZE + GAP / 2
  let nearby := businesses.filter fun b =>
    b.isOccupied && (b.gridPosition.2 = (r : ℤ) || b.gridPosition.2 = (r : ℤ) + 1)
  let visitors := nearby.foldl (fun acc b => acc + b.activeVisitors.getD 0) 0
  { id := "h-" ++ toString r, x1 := PADDING, y1 := y, x2 := CONTAINER_SIZE - PADDING, y2 := y,
    visitors := visitors, orientation := "horizontal" }

/-- Function `trafficSegments` (OfficeMap.tsx lines 415-431): empty unless in traffic
mode, otherwise one segment per internal vertical corridor `c = 1 .. GRID_COLS-1`
followed by one per internal horizontal corridor `r = 1 .. GRID_COLS-1`. -/
def trafficSegments (mapMode : MapMode) (businesses : List Business) : List TrafficSegment :=
  if mapMode ≠ MapMode.traffic then []
  else
    ((List.range (GRID_COLS - 1)).map fun k => verticalSegment businesses (k + 1)) ++
      ((List.range (GRID_COLS - 1)).map fun k => horizontalSegment businesses (k + 1))

/-- Written from the spec's words (§4.4 traffic aggregation), for comparison
with `trafficSegments` which is written from the source: the aggregate of the
vertical corridor separating columns `k` and `k+1` is the sum of
`activeVisitors` over occupied businesses whose column equals `k` or `k+1`. -/
def corridorAggregateSpecV (k : ℕ) (businesses : List Business) : ℕ :=
  ((businesses.filter fun b =>
      b.isOccupied && (b.gridPosition.1 = (k : ℤ) || b.gridPosition.1 = (k : ℤ) + 1)).map
    fun b => b.activeVisitors.getD 0).sum

/-- Written from the spec's words (§4.4 traffic aggregation): the aggregate of
the horizontal corridor separating rows `k` and `k+1` is the sum of
`activeVisitors` over occupied businesses whose row equals `k` or `k+1`. -/
def corridorAggregateSpecH (k : ℕ) (businesses : List Business) : ℕ :=
  ((businesses.filter fun b =>
      b.isOccupied && (b.gridPosition.2 = (k : ℤ) || b.gridPosition.2 = (k : ℤ) + 1)).map
    fun b => b.activeVisitors.getD 0).sum

/-- Model of `searchBusinessesWithAI` (geminiService.ts lines 91-136).
The AI call and JSON parse are external; their combined outcome is the explicit
argument: `.ok raw` when the `try` body reaches the final `return`, where `raw`
is the parsed `result.ids` field (possibly absent, the code then defaults it via
`result.ids || []`); `.error ()` when anything inside the `try` throws, in which
case the `catch` branch returns `{ ids: [], ... }`. Only the `ids` field is
consumed by the map component, so the accompanying `filters` object is not
modelled. -/
def searchBusinessesWithAI (outcome : Except Unit (Option (List String))) : List String :=
  match outcome with
  | Except.ok raw => raw.getD []
  | Except.error _ => []

/-- Model of `analyzeMapTrends` (geminiService.ts lines 216-260): the returned
text on success, and the fixed fallback string when the `try` body throws. -/
def analyzeMapTrends (outcome : Except Unit String) : String :=
  match outcome with
  | Except.ok text => text
  | Except.error _ => "Unable to generate insights at this time."

/-- Function `processedBusinesses` (OfficeMap.tsx lines 451-460): when the AI filter id
list is set (non-null) keep exactly the businesses whose id it contains;
otherwise, when the trimmed search query is non-empty, keep the businesses whose
name, description (when present and non-empty) or category contains the
lowercased query; otherwise the full list. -/
def processedBusinesses (businesses : List Business) (aiFilteredIds : Option (List String))
    (searchQuery : String) : List Business :=
  match aiFilteredIds with
  | some ids => businesses.filter fun b => ids.contains b.id
  | none =>
    if isBlank searchQuery then businesses
    else
      let q := strLower searchQuery
      businesses.filter fun b =>
        containsSub q (strLower b.name) ||
          (match b.description with
           | some d => !d.isEmpty && containsSub q (strLower d)
           | none => false) ||
          containsSub q (strLower b.category)

/-- Function `updateNavigation` (OfficeMap.tsx lines 477-485): drag-delta application
policy per mode and interaction mode. -/
def updateNavigation (mapMode : MapMode) (interactionMode : InteractionMode)
    (dx dy : ℚ) (prev : ViewState) : ViewState :=
  if mapMode = MapMode.globe then
    { prev with rotateZ := prev.rotateZ + dx * (1/2), rotateX := prev.rotateX - dy * (1/2) }
  else if interactionMode = InteractionMode.rotate then
    { prev with rotateZ := prev.rotateZ + dx * (3/10),
                rotateX := max 0 (min 85 (prev.rotateX - dy * (3/10))) }
  else
    { prev with panX := prev.panX + dx, panY := prev.panY + dy }

/-- Function `handleWheel` (OfficeMap.tsx lines 489-496): wheel zoom, clamped to
`[0.4, 2.5]`, with sensitivity `0.0015` applied to `-deltaY`. -/
def handleWheel (deltaY : ℚ) (prev : ViewState) : ViewState :=
  let zoomSpeed : ℚ := 15/10000
  let delta := -deltaY
  { prev with zoom := max (4/10) (min (25/10) (prev.zoom + delta * zoomSpeed)) }

/-- The two-finger pinch zoom branch of `handleTouchMove`
(OfficeMap.tsx lines 517-526): the inter-finger distance delta scaled by
`0.005`, clamped to `[0.4, 2.5]`. -/
def pinchZoom (distDelta : ℚ) (prev : ViewState) : ViewState :=
  let zoomSpeed : ℚ := 5/1000
  { prev with zoom := max (4/10) (min (25/10) (prev.zoom + distDelta * zoomSpeed)) }

/-- The component state of `OfficeMap` (OfficeMap.tsx lines 355-375): every
`useState` cell of the component. -/
structure MapState where
  hoveredId : Option String
  selectedBusinessId : Option String
  isSidebarOpen : Bool
  mapMode : MapMode
  searchQuery : String
  isSearchingAI : Bool
  aiFilteredIds : Option (List String)
  showInsights : Bool
  insightsContent : String
  isAnalyzing : Bool
  interactionMode : InteractionMode
  viewState : ViewState
  isDragging : Bool
deriving DecidableEq, Repr

/-- The initial component state (the `useState` initialisers,
OfficeMap.tsx lines 355-370). -/
def initialMapState : MapState :=
  { hoveredId := none, selectedBusinessId := none, isSidebarOpen := false,
    mapMode := MapMode.standard, searchQuery := "", isSearchingAI := false,
    aiFilteredIds := none, showInsights := false, insightsContent := "",
    isAnalyzing := false, interactionMode := InteractionMode.pan,
    viewState := { zoom := 8/10, rotateX := 55, rotateZ := 45, panX := 0, panY := 0 },
    isDragging := false }

/-- The operations of the `OfficeMap` component: one constructor per state
setter / event handler. The asynchronous handlers (`aiSearchComplete`,
`analyzeTrendsComplete`) model the state once the async action has run to
completion, with the external outcome as an explicit argument. -/
inductive MapOp where
  | setSearchQuery (s : String)
  | aiSearchComplete (outcome : Except Unit (Option (List String)))
  | analyzeTrendsComplete (outcome : Except Unit String)
  | setMapMode (m : MapMode)
  | toggleInteractionMode
  | pointerDown
  | pointerUp
  | drag (dx dy : ℚ)
  | wheel (deltaY : ℚ)
  | pinch (distDelta : ℚ)
  | zoomInButton
  | zoomOutButton
  | selectBusiness (id : String)
  | hover (h : Option String)
  | closeSidebar
  | closeInsights

/-- The state transition of `OfficeMap` for each operation, from the source:
  * `setSearchQuery`: the search input `onChange` (line 580);
  * `aiSearchComplete`: `handleAISearch` run to completion (lines 433-440) —
    a no-op when the trimmed query is empty, else the AI filter becomes the
    `ids` of the (never-rejecting) service result, and the in-flight flag is
    cleared;
  * `analyzeTrendsComplete`: `handleAnalyzeTrends` run to completion
    (lines 442-449), with the handler-level `catch` unreachable because the
    service catches internally;
  * `setMapMode`: the mode buttons plus the `[mapMode]` effect (lines 377-385),
    which fires only when the mode actually changes;
  * `toggleInteractionMode`: the pan/rotate toggle (line 594), rendered only
    outside globe mode;
  * `pointerDown`/`pointerUp`: `handleMouseDown`/`handleMouseUp`,
    `handleTouchStart`/`handleTouchEnd`;
  * `drag`: `handleMouseMove`/single-touch `handleTouchMove`, which apply
    `updateNavigation` only while dragging;
  * `wheel`/`pinch`/`zoomInButton`/`zoomOutButton`: the zoom paths
    (lines 489-496, 517-526, 596-597);
  * `selectBusiness`/`hover`/`closeSidebar`/`closeInsights`: selection and
    overlay toggles. -/
def step (op : MapOp) (s : MapState) : MapState :=
  match op with
  | MapOp.setSearchQuery q => { s with searchQuery := q }
  | MapOp.aiSearchComplete outcome =>
    if isBlank s.searchQuery then s
    else { s with aiFilteredIds := some (searchBusinessesWithAI outcome),
                  isSearchingAI := false }
  | MapOp.analyzeTrendsComplete outcome =>
    { s with showInsights := true, insightsContent := analyzeMapTrends outcome,
             isAnalyzing := false }
  | MapOp.setMapMode m =>
    if m = s.mapMode then s
    else if m = MapMode.globe then
      { s with mapMode := m,
               viewState := { zoom := 9/10, rotateX := 0, rotateZ := 0, panX := 0, panY := 0 },
               interactionMode := InteractionMode.rotate }
    else
      { s with mapMode := m,
               viewState := { zoom := 8/10, rotateX := 55, rotateZ := 45, panX := 0, panY := 0 },
               interactionMode := InteractionMode.pan }
  | MapOp.toggleInteractionMode =>
    if s.mapMode = MapMode.globe then s
    else { s with interactionMode :=
             if s.interactionMode = InteractionMode.pan then InteractionMode.rotate
             else InteractionMode.pan }
  | MapOp.pointerDown => { s with isDragging := true }
  | MapOp.pointerUp => { s with isDragging := false }
  | MapOp.drag dx dy =>
    if s.isDragging then
      { s with viewState := updateNavigation s.mapMode s.interactionMode dx dy s.viewState }
    else s
  | MapOp.wheel deltaY => { s with viewState := handleWheel deltaY s.viewState }
  | MapOp.pinch distDelta =>
    if s.isDragging then { s with viewState := pinchZoom distDelta s.viewState } else s
  | MapOp.zoomInButton =>
    { s with viewState := { s.viewState with zoom := min (25/10) (s.viewState.zoom + 1/10) } }
  | MapOp.zoomOutButton =>
    { s with viewState := { s.viewState with zoom := max (4/10) (s.viewState.zoom - 1/10) } }
  | MapOp.selectBusiness id =>
    { s with selectedBusinessId := some id, isSidebarOpen := true }
  | MapOp.hover h => { s with hoveredId := h }
  | MapOp.closeSidebar => { s with isSidebarOpen := false }
  | MapOp.closeInsights => { s with showInsights := false }

/-- The sphere placement angle `phi = Math.acos(-1 + (2 * index) / total)` of
globe mode (OfficeMap.tsx line 655). -/
noncomputable def phiOf (total index : ℕ) : ℝ :=
  Real.arccos (-1 + (2 * (index : ℝ)) / (total : ℝ))

/-- The sphere placement angle `theta = Math.sqrt(total * Math.PI) * phi` of
globe mode (OfficeMap.tsx line 656). -/
noncomputable def thetaOf (total index : ℕ) : ℝ :=
  Real.sqrt ((total : ℝ) * Real.pi) * phiOf total index

/-- The list of globe-mode sphere placements produced by
`processedBusinesses.map((business, index) => ...)` (OfficeMap.tsx
lines 651-657): one `(phi, theta)` pair per element of the rendered list, with
`total` the length of that list. For the empty list no placement is computed. -/
noncomputable def globeTilePlacements (businesses : List Business) : List (ℝ × ℝ) :=
  businesses.enum.map fun p => (phiOf businesses.length p.1, thetaOf businesses.length p.1)

/-- Whether a connection joins the two given ids, in either order. -/
def connBetween (c : Connection) (x y : String) : Bool :=
  c.participants = (x, y) || c.participants = (y, x)

/-- Sample occupied business whose name contains the query "tech". -/
def techCorp : Business :=
  { id := "b1", name := "TechCorp", description := none, category := "Technology",
    isOccupied := true, gridPosition := (1, 1), activeVisitors := some 10,
    genomeProfile := none }

/-- Sample business needing Marketing, in category Consulting (spec §8 item 6). -/
def bizA : Business :=
  { id := "a", name := "A", description := none, category := "Consulting",
    isOccupied := true, gridPosition := (1, 1), activeVisitors := some 5,
    genomeProfile := some { servicesOffered := [], servicesNeeded := ["Marketing"],
                            industrySector := "Media", companySize := "small" } }

/-- Sample business offering "marketing services", same category as `bizA`. -/
def bizB : Business :=
  { id := "b", name := "B", description := none, category := "Consulting",
    isOccupied := true, gridPosition := (2, 2), activeVisitors := some 7,
    genomeProfile := some { servicesOffered := ["marketing services"], servicesNeeded := [],
                            industrySector := "Media", companySize := "small" } }

/-- Two occupied businesses with 30 and 25 active visitors in adjacent columns
1 and 2, both adjacent to the first vertical corridor (spec §8 item 8). -/
def trafficDemo : List Business :=
  [{ id := "t1", name := "T1", description := none, category := "Retail",
     isOccupied := true, gridPosition := (1, 1), activeVisitors := some 30,
     genomeProfile := none },
   { id := "t2", name := "T2", description := none, category := "Retail",
     isOccupied := true, gridPosition := (2, 1), activeVisitors := some 25,
     genomeProfile := none }]

/-- Claim C8: in grid modes the cell centre for 1-based column `c` and row `r`
is `padding + (c-1)*(cellSize+gap) + cellSize/2` on each axis, with
`cellSize = (containerSize - 2*padding - (cols-1)*gap) / cols`;
`cellCenter(1,1)` equals `padding + cellSize/2` on both axes, and the function
is pure (identical output for identical input). -/
theorem getCellCenter_formula :
    (∀ c r : ℤ, getCellCenter (c, r) =
        (PADDING + ((c : ℚ) - 1) * (CELL_SIZE + GAP) + CELL_SIZE / 2,
         PADDING + ((r : ℚ) - 1) * (CELL_SIZE + GAP) + CELL_SIZE / 2)) ∧
    CELL_SIZE = (CONTAINER_SIZE - 2 * PADDING - ((GRID_COLS : ℚ) - 1) * GAP) / (GRID_COLS : ℚ) ∧
    getCellCenter (1, 1) = (PADDING + CELL_SIZE / 2, PADDING + CELL_SIZE / 2) ∧
    (∀ p : ℤ × ℤ, getCellCenter p = getCellCenter p) := by
  refine ⟨fun c r => ?_, ?_, ?_, fun p => rfl⟩
  · simp only [getCellCenter, Prod.mk.injEq]
    constructor <;> ring
  · norm_num [CELL_SIZE, CONTAINER_SIZE, PADDING, GAP, GRID_COLS]
  · simp only [getCellCenter, Prod.mk.injEq]
    norm_num

/-- Claim C4: switching the map mode resets the camera and interaction mode
regardless of prior state: globe yields zoom 0.9, rotateX 0, rotateZ 0, pans 0
and interaction mode rotate; any non-globe mode yields zoom 0.8, rotateX 55,
rotateZ 45, pans 0 and interaction mode pan. -/
theorem setMapMode_resets_camera (s : MapState) (m : MapMode) (h : m ≠ s.mapMode) :
    ((step (MapOp.setMapMode m) s).viewState, (step (MapOp.setMapMode m) s).interactionMode) =
      if m = MapMode.globe then
        ({ zoom := 9/10, rotateX := 0, rotateZ := 0, panX := 0, panY := 0 },
          InteractionMode.rotate)
      else
        ({ zoom := 8/10, rotateX := 55, rotateZ := 45, panX := 0, panY := 0 },
          InteractionMode.pan) := by
  by_cases hg : m = MapMode.globe
  · subst hg
    simp [step, h]
  · simp [step, h, hg]

/-- Concrete instance of `setMapMode_resets_camera`: switching the initial
state (standard mode) to globe. -/
theorem setMapMode_resets_camera_witness :
    MapMode.globe ≠ initialMapState.mapMode ∧
    ((step (MapOp.setMapMode MapMode.globe) initialMapState).viewState,
        (step (MapOp.setMapMode MapMode.globe) initialMapState).interactionMode) =
      ({ zoom := 9/10, rotateX := 0, rotateZ := 0, panX := 0, panY := 0 },
        InteractionMode.rotate) := by
  refine ⟨by decide, ?_⟩
  have h := setMapMode_resets_camera initialMapState MapMode.globe (by decide)
  simpa using h

/-- A single rotate-mode drag outside globe mode always leaves `rotateX` inside
`[0, 85]`: the update is `rotateX := clamp(rotateX - dy*0.3, 0, 85)`. -/
theorem updateNavigation_rotate_bounds (mode : MapMode) (imode : InteractionMode)
    (hm : mode ≠ MapMode.globe) (hi : imode = InteractionMode.rotate)
    (dx dy : ℚ) (v : ViewState) :
    0 ≤ (updateNavigation mode imode dx dy v).rotateX ∧
      (updateNavigation mode imode dx dy v).rotateX ≤ 85 := by
  subst hi
  simp only [updateNavigation, if_neg hm, if_pos rfl]
  exact ⟨le_max_left _ _, max_le (by norm_num) (min_le_left _ _)⟩

/-- Claim C5: in any non-globe mode with interaction mode rotate, for every
sequence of drag deltas applied to a camera whose `rotateX` starts in
`[0, 85]`, `rotateX` remains in `[0, 85]`. -/
theorem rotate_drag_clamps_rotateX (mode : MapMode) (imode : InteractionMode)
    (hm : mode ≠ MapMode.globe) (hi : imode = InteractionMode.rotate)
    (deltas : List (ℚ × ℚ)) (v : ViewState)
    (h0 : 0 ≤ v.rotateX) (h85 : v.rotateX ≤ 85) :
    0 ≤ (deltas.foldl (fun w d => updateNavigation mode imode d.1 d.2 w) v).rotateX ∧
      (deltas.foldl (fun w d => updateNavigation mode imode d.1 d.2 w) v).rotateX ≤ 85 := by
  induction deltas generalizing v with
  | nil => exact ⟨h0, h85⟩
  | cons d rest ih =>
    simp only [List.foldl_cons]
    obtain ⟨ha, hb⟩ := updateNavigation_rotate_bounds mode imode hm hi d.1 d.2 v
    exact ih _ ha hb

/-- Concrete instance of `rotate_drag_clamps_rotateX`: a huge downward-then-up
drag sequence from the default non-globe camera. -/
theorem rotate_drag_clamps_rotateX_witness :
    MapMode.standard ≠ MapMode.globe ∧
      0 ≤ ([((0 : ℚ), (-1000 : ℚ)), ((7 : ℚ), (2000 : ℚ))].foldl
          (fun w d => updateNavigation MapMode.standard InteractionMode.rotate d.1 d.2 w)
          { zoom := 8/10, rotateX := 55, rotateZ := 45, panX := 0, panY := 0 }).rotateX ∧
      ([((0 : ℚ), (-1000 : ℚ)), ((7 : ℚ), (2000 : ℚ))].foldl
          (fun w d => updateNavigation MapMode.standard InteractionMode.rotate d.1 d.2 w)
          { zoom := 8/10, rotateX := 55, rotateZ := 45, panX := 0, panY := 0 }).rotateX ≤ 85 := by
  refine ⟨by decide, ?_, ?_⟩
  · exact (rotate_drag_clamps_rotateX MapMode.standard InteractionMode.rotate (by decide) rfl
      _ _ (by decide) (by decide)).1
  · exact (rotate_drag_clamps_rotateX MapMode.standard InteractionMode.rotate (by decide) rfl
      _ _ (by decide) (by decide)).2

/-- The zoom clamp saturates at 2.5 from above. -/
theorem clampZoom_high (z : ℚ) (h : 25/10 ≤ z) :
    max (4/10 : ℚ) (min (25/10) z) = 25/10 := by
  rw [min_eq_left h, max_eq_right (by norm_num : (4/10 : ℚ) ≤ 25/10)]

/-- The zoom clamp saturates at 0.4 from below. -/
theorem clampZoom_low (z : ℚ) (h : z ≤ 4/10) :
    max (4/10 : ℚ) (min (25/10) z) = 4/10 := by
  rw [min_eq_right (le_trans h (by norm_num)), max_eq_left h]

/-- Claim C6: wheel and pinch zoom updates saturate at the bounds 0.4 and 2.5:
a delta that would push `zoom` past a bound yields exactly the bound, and any
further delta in the same direction applied at the bound leaves `zoom`
unchanged. -/
theorem zoom_clamp_saturation :
    (∀ (v : ViewState) (dY : ℚ), 25/10 ≤ v.zoom + (-dY) * (15/10000) →
        (handleWheel dY v).zoom = 25/10) ∧
    (∀ (v : ViewState) (dY : ℚ), v.zoom + (-dY) * (15/10000) ≤ 4/10 →
        (handleWheel dY v).zoom = 4/10) ∧
    (∀ (v : ViewState) (dY : ℚ), v.zoom = 25/10 → dY ≤ 0 →
        (handleWheel dY v).zoom = 25/10) ∧
    (∀ (v : ViewState) (dY : ℚ), v.zoom = 4/10 → 0 ≤ dY →
        (handleWheel dY v).zoom = 4/10) ∧
    (∀ (v : ViewState) (d : ℚ), 25/10 ≤ v.zoom + d * (5/1000) →
        (pinchZoom d v).zoom = 25/10) ∧
    (∀ (v : ViewState) (d : ℚ), v.zoom + d * (5/1000) ≤ 4/10 →
        (pinchZoom d v).zoom = 4/10) ∧
    (∀ (v : ViewState) (d : ℚ), v.zoom = 25/10 → 0 ≤ d →
        (pinchZoom d v).zoom = 25/10) ∧
    (∀ (v : ViewState) (d : ℚ), v.zoom = 4/10 → d ≤ 0 →
        (pinchZoom d v).zoom = 4/10) := by
  refine ⟨fun v dY h => clampZoom_high _ h, fun v dY h => clampZoom_low _ h,
    fun v dY h1 h2 => ?_, fun v dY h1 h2 => ?_,
    fun v d h => clampZoom_high _ h, fun v d h => clampZoom_low _ h,
    fun v d h1 h2 => ?_, fun v d h1 h2 => ?_⟩
  · have hnn : 0 ≤ (-dY) * (15/10000 : ℚ) := mul_nonneg (by linarith) (by norm_num)
    exact clampZoom_high _ (by linarith)
  · have hnp : (-dY) * (15/10000 : ℚ) ≤ 0 :=
      mul_nonpos_of_nonpos_of_nonneg (by linarith) (by norm_num)
    exact clampZoom_low _ (by linarith)
  · have hnn : 0 ≤ d * (5/1000 : ℚ) := mul_nonneg h2 (by norm_num)
    exact clampZoom_high _ (by linarith)
  · have hnp : d * (5/1000 : ℚ) ≤ 0 := mul_nonpos_of_nonpos_of_nonneg h2 (by norm_num)
    exact clampZoom_low _ (by linarith)

/-- Concrete instance of `zoom_clamp_saturation`: a large wheel-in from zoom
2.4 lands exactly on 2.5, and a further wheel-in from 2.5 stays at 2.5. -/
theorem zoom_clamp_saturation_witness :
    ((25 : ℚ)/10 ≤ ({ zoom := 24/10, rotateX := 55, rotateZ := 45, panX := 0, panY := 0 } :
        ViewState).zoom + (-(-1000 : ℚ)) * (15/10000)) ∧
    (handleWheel (-1000)
        { zoom := 24/10, rotateX := 55, rotateZ := 45, panX := 0, panY := 0 }).zoom = 25/10 ∧
    (handleWheel (-1000)
        { zoom := 25/10, rotateX := 55, rotateZ := 45, panX := 0, panY := 0 }).zoom = 25/10 := by
  refine ⟨by norm_num, ?_, ?_⟩
  · exact zoom_clamp_saturation.1 _ _ (by norm_num)
  · exact zoom_clamp_saturation.2.2.1 _ _ rfl (by norm_num)

/-- Claim C9: for an empty business list in globe mode, no sphere placement is
computed (the per-element placement, whose `total` would be 0, is evaluated
once per element of the processed list and hence never) and zero tiles are
produced; every function involved is total, so nothing can throw. -/
theorem globe_empty_input_safe :
    ∀ (aiIds : Option (List String)) (q : String),
      globeTilePlacements (processedBusinesses [] aiIds q) = [] ∧
        (globeTilePlacements (processedBusinesses [] aiIds q)).length = 0 := by
  intro aiIds q
  have hp : processedBusinesses [] aiIds q = [] := by
    cases aiIds with
    | some ids => rfl
    | none =>
      simp only [processedBusinesses]
      split <;> rfl
  rw [hp]
  exact ⟨rfl, rfl⟩

/-- Claim C10: when the AI-filter id list is non-null (the empty list
included), the processed business list depends only on the business list and
that id list — the text query is immaterial — and no component operation ever
resets the AI-filter id list back to null once it is set. -/
theorem aiFilter_display_and_persistence :
    (∀ (bs : List Business) (ids : List String) (q1 q2 : String),
        processedBusinesses bs (some ids) q1 = processedBusinesses bs (some ids) q2) ∧
    (∀ (op : MapOp) (s : MapState), s.aiFilteredIds.isSome = true →
        ((step op s).aiFilteredIds).isSome = true) := by
  constructor
  · intro bs ids q1 q2
    rfl
  · intro op s h
    cases op <;> simp only [step] <;>
      first
        | exact h
        | (split_ifs <;> first | exact h | rfl)

/-- Concrete instance of `aiFilter_display_and_persistence`: an empty id
filter on the initial state survives an unrelated operation, and the displayed
list ignores the text query. -/
theorem aiFilter_display_and_persistence_witness :
    processedBusinesses [techCorp] (some []) "a" = processedBusinesses [techCorp] (some []) "b" ∧
      (({ initialMapState with aiFilteredIds := some [] } : MapState).aiFilteredIds).isSome
        = true ∧
      ((step MapOp.closeSidebar
          { initialMapState with aiFilteredIds := some [] }).aiFilteredIds).isSome = true :=
  ⟨aiFilter_display_and_persistence.1 [techCorp] [] "a" "b", rfl,
    aiFilter_display_and_persistence.2 MapOp.closeSidebar
      { initialMapState with aiFilteredIds := some [] } rfl⟩

/-- Claim C1, behaviour at the failing input: when the underlying AI call
throws, `searchBusinessesWithAI` catches internally and returns `ids = []`, so
`handleAISearch` sets the AI filter to the EMPTY list — it is not left unset —
and the map then renders an empty business list instead of the unfiltered one
(here the unfiltered display for query "tech" is `[techCorp]`). -/
theorem aiSearch_failure_filters_everything :
    (step (MapOp.aiSearchComplete (Except.error ()))
        { initialMapState with searchQuery := "tech" }).aiFilteredIds = some [] ∧
    processedBusinesses [techCorp]
        (step (MapOp.aiSearchComplete (Except.error ()))
          { initialMapState with searchQuery := "tech" }).aiFilteredIds
        (step (MapOp.aiSearchComplete (Except.error ()))
          { initialMapState with searchQuery := "tech" }).searchQuery = [] ∧
    processedBusinesses [techCorp] none "tech" = [techCorp] := by
  refine ⟨?_, ?_, ?_⟩ <;> decide

/-- Folding visitor counts from an accumulator equals the accumulator plus the
sum of the mapped counts. -/
theorem foldl_add_visitors (l : List Business) (n : ℕ) :
    l.foldl (fun acc b => acc + b.activeVisitors.getD 0) n =
      n + (l.map fun b => b.activeVisitors.getD 0).sum := by
  induction l generalizing n with
  | nil => simp
  | cons b rest ih => simp [List.foldl_cons, ih, Nat.add_assoc]

/-- Claim C7: in traffic mode one segment is produced per internal corridor
(`cols-1` vertical then `rows-1` horizontal, here 2 + 2), each aggregating
`activeVisitors` over occupied businesses whose coordinate on the corridor's
axis equals either of the two columns/rows it separates; in particular the
demo pair with 30 and 25 visitors adjacent to the first corridors yields 55. -/
theorem trafficSegments_spec :
    ∀ bs : List Business,
      (trafficSegments MapMode.traffic bs).length = 2 * (GRID_COLS - 1) ∧
      (trafficSegments MapMode.traffic bs).map (fun seg => (seg.orientation, seg.visitors)) =
        [("vertical", corridorAggregateSpecV 1 bs),
         ("vertical", corridorAggregateSpecV 2 bs),
         ("horizontal", corridorAggregateSpecH 1 bs),
         ("horizontal", corridorAggregateSpecH 2 bs)] ∧
      (trafficSegments MapMode.traffic trafficDemo).map (fun seg => seg.visitors) =
        [55, 25, 55, 0] := by
  intro bs
  refine ⟨?_, ?_, by decide⟩
  · simp [trafficSegments, GRID_COLS]
  · simp [trafficSegments, GRID_COLS, List.range_succ, verticalSegment, horizontalSegment,
      corridorAggregateSpecV, corridorAggregateSpecH, foldl_add_visitors]

/-- Claim C2: in globe mode the placement of index `i` in a filtered list of
length `n` uses `phi = acos(-1 + 2i/n)` and `theta = sqrt(n*pi)*phi`; for every
`n ≥ 1` the `n` computed `(phi, theta)` pairs are pairwise distinct for
distinct indices, and `phi` moves monotonically (here: decreasing from `pi` at
index 0) while staying inside `[0, pi]` as the index goes `0 → n-1`. -/
theorem globe_sphere_coverage (n : ℕ) (hn : 1 ≤ n) :
    (∀ i j : ℕ, i < n → j < n → i ≠ j →
        (phiOf n i, thetaOf n i) ≠ (phiOf n j, thetaOf n j)) ∧
    (∀ i j : ℕ, i < n → j < n → i ≤ j → phiOf n j ≤ phiOf n i) ∧
    (∀ i : ℕ, i < n → 0 ≤ phiOf n i ∧ phiOf n i ≤ Real.pi) ∧
    phiOf n 0 = Real.pi := by
  have hnpos : (0 : ℝ) < n := by exact_mod_cast hn
  have harg_lo : ∀ i : ℕ, (-1 : ℝ) ≤ -1 + (2 * (i : ℝ)) / n := by
    intro i
    have h0 : (0 : ℝ) ≤ (2 * (i : ℝ)) / n := by positivity
    linarith
  have harg_hi : ∀ i : ℕ, i < n → -1 + (2 * (i : ℝ)) / n ≤ 1 := by
    intro i hi
    have hin : (i : ℝ) ≤ n := by exact_mod_cast hi.le
    have h2 : (2 * (i : ℝ)) / n ≤ 2 := by
      rw [div_le_iff₀ hnpos]
      linarith
    linarith
  have hinj : ∀ i j : ℕ, i < n → j < n → phiOf n i = phiOf n j → i = j := by
    intro i j hi hj h
    have harg := (Real.arccos_inj (harg_lo i) (harg_hi i hi)
      (harg_lo j) (harg_hi j hj)).mp h
    have h2 : (2 * (i : ℝ)) / n = (2 * (j : ℝ)) / n := by linarith
    field_simp at h2
    exact_mod_cast h2
  refine ⟨?_, ?_, fun i _ => ⟨Real.arccos_nonneg _, Real.arccos_le_pi _⟩, ?_⟩
  · intro i j hi hj hne hcontra
    exact hne (hinj i j hi hj (congrArg Prod.fst hcontra))
  · intro i j _ _ hij
    have harg : -1 + (2 * (i : ℝ)) / n ≤ -1 + (2 * (j : ℝ)) / n := by
      have hij' : (i : ℝ) ≤ (j : ℝ) := by exact_mod_cast hij
      have h2 : (2 * (i : ℝ)) / n ≤ (2 * (j : ℝ)) / n := by
        apply div_le_div_of_nonneg_right ?_ hnpos.le
        · linarith
      linarith
    unfold phiOf
    rw [Real.arccos_eq_pi_div_two_sub_arcsin, Real.arccos_eq_pi_div_two_sub_arcsin]
    have := Real.monotone_arcsin harg
    linarith
  · unfold phiOf
    norm_num [Real.arccos_neg_one]

/-- Concrete instance of `globe_sphere_coverage` at `n = 1`: the single
placement has `phi = pi`. -/
theorem globe_sphere_coverage_witness :
    1 ≤ 1 ∧ phiOf 1 0 = Real.pi :=
  ⟨le_refl 1, (globe_sphere_coverage 1 (le_refl 1)).2.2.2⟩

/-- The synergy check is symmetric: its two disjuncts swap roles. -/
theorem hasSynergy_comm (a b : Business) : hasSynergy a b = hasSynergy b a := by
  unfold hasSynergy
  exact Bool.or_comm _ _

/-- What a produced edge looks like: its participants are the ordered pair of
ids, its type is synergy exactly when the synergy check holds (else industry),
and an edge only exists when synergy or a shared category holds. -/
theorem edgeFor_eq (b1 b2 : Business) (c : Connection) (h : edgeFor b1 b2 = some c) :
    c.participants = (b1.id, b2.id) ∧
      c.type = (if hasSynergy b1 b2 then ConnType.synergy else ConnType.industry) ∧
      (hasSynergy b1 b2 = true ∨ b1.category = b2.category) := by
  unfold edgeFor at h
  split at h
  · rename_i hs
    cases h
    simp [hs]
  · split at h
    · rename_i hs hc
      cases h
      simp [hs, hc]
    · cases h

/-- When synergy or a shared category holds, the pair produces an edge. -/
theorem edgeFor_isSome (b1 b2 : Business)
    (hcond : hasSynergy b1 b2 = true ∨ b1.category = b2.category) :
    ∃ c, edgeFor b1 b2 = some c := by
  unfold edgeFor
  by_cases hs : hasSynergy b1 b2
  · exact ⟨_, by rw [if_pos hs]⟩
  · have hc : b1.category = b2.category := by
      rcases hcond with h | h
      · exact absurd h hs
      · exact h
    exact ⟨_, by rw [if_neg hs, if_pos hc]⟩

/-- Every connection in `pairConnections l` is produced by `edgeFor` from two
members of `l`. -/
theorem mem_pairConnections (l : List Business) (c : Connection)
    (h : c ∈ pairConnections l) :
    ∃ x ∈ l, ∃ y ∈ l, edgeFor x y = some c := by
  induction l with
  | nil => simp [pairConnections] at h
  | cons b rest ih =>
    rw [pairConnections, List.mem_append] at h
    rcases h with h | h
    · obtain ⟨y, hy, he⟩ := List.mem_filterMap.mp h
      exact ⟨b, List.mem_cons_self b rest, y, List.mem_cons_of_mem b hy, he⟩
    · obtain ⟨x, hx, y, hy, he⟩ := ih h
      exact ⟨x, List.mem_cons_of_mem b hx, y, List.mem_cons_of_mem b hy, he⟩

/-- When two businesses with distinct ids both occur in `l` and the edge
condition holds for them, `pairConnections l` contains an edge joining their
ids. -/
theorem exists_pairConnection (l : List Business) (a b : Business)
    (ha : a ∈ l) (hb : b ∈ l) (hne : a.id ≠ b.id)
    (hcond : hasSynergy a b = true ∨ a.category = b.category) :
    ∃ c ∈ pairConnections l, connBetween c a.id b.id = true := by
  induction l with
  | nil => simp at ha
  | cons h rest ih =>
    by_cases hha : h = a
    · subst hha
      have hbr : b ∈ rest := by
        rcases List.mem_cons.mp hb with hbh | hbr
        · exact absurd (hbh ▸ rfl) hne.symm
        · exact hbr
      obtain ⟨c, hc⟩ := edgeFor_isSome h b hcond
      refine ⟨c, ?_, ?_⟩
      · rw [pairConnections, List.mem_append]
        exact Or.inl (List.mem_filterMap.mpr ⟨b, hbr, hc⟩)
      · have hp := (edgeFor_eq h b c hc).1
        simp [connBetween, hp]
    · by_cases hhb : h = b
      · subst hhb
        have har : a ∈ rest := by
          rcases List.mem_cons.mp ha with hah | har
          · exact absurd (hah ▸ rfl) hne
          · exact har
        have hcond' : hasSynergy h a = true ∨ h.category = a.category := by
          rcases hcond with hs | hc
          · exact Or.inl (hasSynergy_comm h a ▸ hs)
          · exact Or.inr hc.symm
        obtain ⟨c, hc⟩ := edgeFor_isSome h a hcond'
        refine ⟨c, ?_, ?_⟩
        · rw [pairConnections, List.mem_append]
          exact Or.inl (List.mem_filterMap.mpr ⟨a, har, hc⟩)
        · have hp := (edgeFor_eq h a c hc).1
          simp [connBetween, hp]
      · have har : a ∈ rest := by
          rcases List.mem_cons.mp ha with hah | har
          · exact absurd hah.symm hha
          · exact har
        have hbr : b ∈ rest := by
          rcases List.mem_cons.mp hb with hbh | hbr
          · exact absurd hbh.symm hhb
          · exact hbr
        obtain ⟨c, hc, hcb⟩ := ih har hbr
        refine ⟨c, ?_, hcb⟩
        rw [pairConnections, List.mem_append]
        exact Or.inr hc

/-- Function `connBetween` is symmetric in the two ids. -/
theorem connBetween_comm (c : Connection) (x y : String) :
    connBetween c x y = connBetween c y x := by
  unfold connBetween
  exact Bool.or_comm _ _

/-- Both participant ids of any derived connection are ids of list members. -/
theorem pairConnections_participant_mem (l : List Business) (c : Connection)
    (h : c ∈ pairConnections l) :
    c.participants.1 ∈ l.map Business.id ∧ c.participants.2 ∈ l.map Business.id := by
  obtain ⟨x, hx, y, hy, he⟩ := mem_pairConnections l c h
  have hp := (edgeFor_eq x y c he).1
  rw [hp]
  exact ⟨List.mem_map_of_mem _ hx, List.mem_map_of_mem _ hy⟩

/-- If one of the two ids does not occur in the list, no derived connection
joins them. -/
theorem pairConnections_filter_eq_nil (l : List Business) (x y : String)
    (hxy : x ∉ l.map Business.id ∨ y ∉ l.map Business.id) :
    ((pairConnections l).filter fun c => connBetween c x y) = [] := by
  rw [List.filter_eq_nil_iff]
  intro c hc hcb
  obtain ⟨h1, h2⟩ := pairConnections_participant_mem l c hc
  simp only [connBetween, Bool.or_eq_true, decide_eq_true_eq] at hcb
  rcases hcb with hp | hp
  · rcases hxy with hx | hy
    · exact hx (by rw [← show c.participants.1 = x from congrArg Prod.fst hp]; exact h1)
    · exact hy (by rw [← show c.participants.2 = y from congrArg Prod.snd hp]; exact h2)
  · rcases hxy with hx | hy
    · exact hx (by rw [← show c.participants.2 = x from congrArg Prod.snd hp]; exact h2)
    · exact hy (by rw [← show c.participants.1 = y from congrArg Prod.fst hp]; exact h1)

/-- In a list whose ids are distinct, at most one member has a given id. -/
theorem filter_id_eq_le_one (l : List Business) (hnd : (l.map Business.id).Nodup)
    (y : String) :
    (l.filter fun b => b.id = y).length ≤ 1 := by
  induction l with
  | nil => simp
  | cons b rest ih =>
    rw [List.map_cons, List.nodup_cons] at hnd
    obtain ⟨hb, hrest⟩ := hnd
    by_cases hid : b.id = y
    · have hnil : rest.filter (fun z => z.id = y) = [] := by
        rw [List.filter_eq_nil_iff]
        intro z hz hzy
        simp only [decide_eq_true_eq] at hzy
        exact hb (by rw [hid, ← hzy]; exact List.mem_map_of_mem _ hz)
      simp [List.filter_cons, hid, hnil]
    · simp only [List.filter_cons, hid, decide_False, if_false, ite_false]
      exact ih hrest

/-- Edges built from a fixed first business `b` with `b.id = x` and joining
the id pair `(x, y)` are no more numerous than the members of the other list
whose id is `y`. -/
theorem filterMap_edge_count (b : Business) (rest : List Business) (x y : String)
    (hbx : b.id = x) (hxy : x ≠ y) :
    ((rest.filterMap (edgeFor b)).filter fun c => connBetween c x y).length ≤
      (rest.filter fun r => r.id = y).length := by
  induction rest with
  | nil => simp
  | cons r rs ih =>
    cases hfr : edgeFor b r with
    | none =>
      rw [List.filterMap_cons, hfr, List.filter_cons]
      by_cases hq : r.id = y
      · simp only [hq, decide_True, if_true, List.length_cons]
        exact Nat.le_succ_of_le ih
      · simp only [hq, decide_False, Bool.false_eq_true, if_false]
        exact ih
    | some c =>
      rw [List.filterMap_cons, hfr, List.filter_cons, List.filter_cons]
      have hp := (edgeFor_eq b r c hfr).1
      by_cases hpc : connBetween c x y = true
      · have hry : r.id = y := by
          simp only [connBetween, hp, Bool.or_eq_true, decide_eq_true_eq,
            Prod.mk.injEq] at hpc
          rcases hpc with ⟨_, h2⟩ | ⟨h1, _⟩
          · exact h2
          · exact absurd (hbx.symm.trans h1) hxy
        simp only [hpc, if_true, hry, decide_True, List.length_cons]
        exact Nat.succ_le_succ ih
      · simp only [hpc, Bool.false_eq_true, if_false]
        by_cases hq : r.id = y
        · simp only [hq, decide_True, if_true, List.length_cons]
          exact Nat.le_succ_of_le ih
        · simp only [hq, decide_False, Bool.false_eq_true, if_false]
          exact ih

/-- In a list with pairwise-distinct ids, at most one derived connection joins
a given unordered pair of distinct ids. -/
theorem count_pair_le_one (l : List Business) (hnd : (l.map Business.id).Nodup)
    (x y : String) (hxy : x ≠ y) :
    ((pairConnections l).filter fun c => connBetween c x y).length ≤ 1 := by
  induction l with
  | nil => simp [pairConnections]
  | cons b rest ih =>
    rw [List.map_cons, List.nodup_cons] at hnd
    obtain ⟨hb, hrest⟩ := hnd
    rw [pairConnections, List.filter_append, List.length_append]
    by_cases hbx : b.id = x
    · have hB : ((pairConnections rest).filter fun c => connBetween c x y) = [] :=
        pairConnections_filter_eq_nil rest x y (Or.inl (hbx ▸ hb))
      have hA := filterMap_edge_count b rest x y hbx hxy
      have hy := filter_id_eq_le_one rest hrest y
      rw [hB]
      simp only [List.length_nil]
      omega
    · by_cases hby : b.id = y
      · have hB : ((pairConnections rest).filter fun c => connBetween c x y) = [] :=
          pairConnections_filter_eq_nil rest x y (Or.inr (hby ▸ hb))
        have hcongr : (rest.filterMap (edgeFor b)).filter (fun c => connBetween c x y)
            = (rest.filterMap (edgeFor b)).filter (fun c => connBetween c y x) :=
          List.filter_congr fun c _ => connBetween_comm c x y
        have hA := filterMap_edge_count b rest y x hby (Ne.symm hxy)
        have hx' := filter_id_eq_le_one rest hrest x
        rw [hB, hcongr]
        simp only [List.length_nil]
        omega
      · have hA : ((rest.filterMap (edgeFor b)).filter fun c => connBetween c x y) = [] := by
          rw [List.filter_eq_nil_iff]
          intro c hc hcb
          obtain ⟨r, _, he⟩ := List.mem_filterMap.mp hc
          have hp := (edgeFor_eq b r c he).1
          simp only [connBetween, hp, Bool.or_eq_true, decide_eq_true_eq,
            Prod.mk.injEq] at hcb
          rcases hcb with ⟨h1, _⟩ | ⟨h1, _⟩
          · exact hbx h1
          · exact hby h1
        have hB := ih hrest
        rw [hA]
        simp only [List.length_nil]
        omega

/-- Claim C3: for every unordered pair of occupied businesses (with distinct
ids, ids being unique upstream) at most one relationship edge is derived; every
edge joining the pair has type synergy exactly when the case-insensitive
containment check between one side's needed services and the other side's
offered services succeeds in either role assignment (synergy taking precedence
over industry), and an edge exists iff synergy holds or the categories are
equal. -/
theorem networking_edge_pair_spec (bs : List Business)
    (hnd : ((bs.filter fun z => z.isOccupied).map Business.id).Nodup)
    (a b : Business) (ha : a ∈ bs) (hb : b ∈ bs)
    (hao : a.isOccupied = true) (hbo : b.isOccupied = true) (hne : a.id ≠ b.id) :
    ((networkingConnections MapMode.networking bs).filter
        fun c => connBetween c a.id b.id).length ≤ 1 ∧
    (∀ c ∈ networkingConnections MapMode.networking bs,
        connBetween c a.id b.id = true →
        c.type = (if hasSynergy a b then ConnType.synergy else ConnType.industry)) ∧
    ((∃ c ∈ networkingConnections MapMode.networking bs,
        connBetween c a.id b.id = true) ↔
      (hasSynergy a b = true ∨ a.category = b.category)) := by
  have hocc : networkingConnections MapMode.networking bs
      = pairConnections (bs.filter fun z => z.isOccupied) := by
    simp [networkingConnections]
  have haocc : a ∈ bs.filter fun z => z.isOccupied := List.mem_filter.mpr ⟨ha, hao⟩
  have hbocc : b ∈ bs.filter fun z => z.isOccupied := List.mem_filter.mpr ⟨hb, hbo⟩
  have hinj := List.inj_on_of_nodup_map hnd
  refine ⟨?_, ?_, ?_⟩
  · rw [hocc]
    exact count_pair_le_one _ hnd a.id b.id hne
  · intro c hc hcb
    rw [hocc] at hc
    obtain ⟨x, hx, y, hy, he⟩ := mem_pairConnections _ c hc
    obtain ⟨hp, htype, -⟩ := edgeFor_eq x y c he
    simp only [connBetween, hp, Bool.or_eq_true, decide_eq_true_eq, Prod.mk.injEq] at hcb
    rcases hcb with ⟨h1, h2⟩ | ⟨h1, h2⟩
    · have hxa : x = a := hinj hx haocc h1
      have hyb : y = b := hinj hy hbocc h2
      rw [htype, hxa, hyb]
    · have hxb : x = b := hinj hx hbocc h1
      have hya : y = a := hinj hy haocc h2
      rw [htype, hxb, hya, hasSynergy_comm b a]
  · constructor
    · rintro ⟨c, hc, hcb⟩
      rw [hocc] at hc
      obtain ⟨x, hx, y, hy, he⟩ := mem_pairConnections _ c hc
      obtain ⟨hp, -, hcond⟩ := edgeFor_eq x y c he
      simp only [connBetween, hp, Bool.or_eq_true, decide_eq_true_eq, Prod.mk.injEq] at hcb
      rcases hcb with ⟨h1, h2⟩ | ⟨h1, h2⟩
      · have hxa : x = a := hinj hx haocc h1
        have hyb : y = b := hinj hy hbocc h2
        rw [hxa, hyb] at hcond
        exact hcond
      · have hxb : x = b := hinj hx hbocc h1
        have hya : y = a := hinj hy haocc h2
        rw [hxb, hya] at hcond
        rcases hcond with hs | hc2
        · exact Or.inl (hasSynergy_comm a b ▸ hs)
        · exact Or.inr hc2.symm
    · intro hcond
      obtain ⟨c, hc, hcb⟩ := exists_pairConnection _ a b haocc hbocc hne hcond
      rw [hocc]
      exact ⟨c, hc, hcb⟩

/-- Concrete instance of `networking_edge_pair_spec` at the spec's example:
`bizA` needs "Marketing", `bizB` offers "marketing services", both share the
category, and the single derived edge has type synergy — not industry. -/
theorem networking_edge_pair_spec_witness :
    hasSynergy bizA bizB = true ∧
    bizA.category = bizB.category ∧
    (networkingConnections MapMode.networking [bizA, bizB]).map (fun c => c.type)
      = [ConnType.synergy] ∧
    ((networkingConnections MapMode.networking [bizA, bizB]).filter
        fun c => connBetween c bizA.id bizB.id).length ≤ 1 := by
  refine ⟨by decide, by decide, by decide, ?_⟩
  exact (networking_edge_pair_spec [bizA, bizB] (by decide) bizA bizB (by decide) (by decide)
    (by decide) (by decide) (by decide)).1

/-- Concrete instance of `trafficSegments_spec` at the demo business pair. -/
theorem trafficSegments_spec_witness :
    (trafficSegments MapMode.traffic trafficDemo).length = 2 * (GRID_COLS - 1) ∧
    (trafficSegments MapMode.traffic trafficDemo).map (fun seg => seg.visitors)
      = [55, 25, 55, 0] :=
  ⟨(trafficSegments_spec trafficDemo).1, (trafficSegments_spec trafficDemo).2.2⟩

/-- Concrete instance of `getCellCenter_formula` at cells (1,1) and (2,3). -/
theorem getCellCenter_formula_witness :
    getCellCenter (1, 1) = (PADDING + CELL_SIZE / 2, PADDING + CELL_SIZE / 2) ∧
    getCellCenter (2, 3) =
      (PADDING + (((2 : ℤ) : ℚ) - 1) * (CELL_SIZE + GAP) + CELL_SIZE / 2,
       PADDING + (((3 : ℤ) : ℚ) - 1) * (CELL_SIZE + GAP) + CELL_SIZE / 2) :=
  ⟨getCellCenter_formula.2.2.1, getCellCenter_formula.1 2 3⟩

/-- Concrete instance of `globe_empty_input_safe` at a set AI filter and a
non-empty query. -/
theorem globe_empty_input_safe_witness :
    globeTilePlacements (processedBusinesses [] (some ["z"]) "q") = [] ∧
      (globeTilePlacements (processedBusinesses [] (some ["z"]) "q")).length = 0 :=
  globe_empty_input_safe (some ["z"]) "q"
